import Mathlib

/-!
Verification of the custom-command subsystem of a Telegram bot (src/main.py).

The embedding models strings as lists of characters (`Str`), which matches the
character-level operations the source performs (`lower`, `strip`, `lstrip`,
`re.sub` over character classes, slicing and `split`).  Python dicts are
modelled as association lists with first-match lookup; every state the program
reaches keeps dict keys unique, and all operations below agree with Python
dict semantics on such states.  All character-class operations are modelled on
their ASCII fragment, which is exact for every input considered here.
-/

/-- Program strings, modelled as lists of characters. -/
abbrev Str := List Char

/-- Python `str.lower()` (ASCII fragment): lower-cases every character. -/
def pyLower (s : Str) : Str := s.map Char.toLower

/-- The ASCII whitespace characters recognised by Python `str.strip()` and by
the regex class `\s`. -/
def pyIsSpace (c : Char) : Bool :=
  c == ' ' || c == '\t' || c == '\n' || c == '\r' || c == Char.ofNat 11 || c == Char.ofNat 12

/-- Python `str.strip()`: removes leading and trailing whitespace. -/
def pyStrip (s : Str) : Str :=
  ((s.dropWhile pyIsSpace).reverse.dropWhile pyIsSpace).reverse

/-- Python `str.isalnum()` (ASCII fragment): non-empty and every character a
letter or a digit. -/
def pyIsAlnum (s : Str) : Bool := !s.isEmpty && s.all Char.isAlphanum

/-- Models `re.sub(r'[\s-]+', '_', s)` from src/main.py line 131: every maximal
run of whitespace and hyphen characters is replaced by one underscore.  The
boolean flag records whether the scan is currently inside such a run. -/
def subSpaceHyphen : Bool → Str → Str
  | _, [] => []
  | inRun, c :: cs =>
    if pyIsSpace c || c == '-' then
      if inRun then subSpaceHyphen true cs
      else '_' :: subSpaceHyphen true cs
    else c :: subSpaceHyphen false cs

/-- The name normalisation performed at src/main.py line 131:
`re.sub(r'[\s-]+', '_', text.lower().strip().lstrip('/'))`. -/
def normalize_name (text : Str) : Str :=
  subSpaceHyphen false ((pyStrip (pyLower text)).dropWhile (fun c => c == '/'))

/-- Telegram chat types distinguished by the source (`update.effective_chat.type`). -/
inductive ChatType where
  | group
  | supergroup
  | privateChat
  | channel
deriving DecidableEq

/-- An effective chat: its identifier (already converted to a string, as the
source does with `str(update.effective_chat.id)`) and its type. -/
structure Chat where
  id : Str
  chatType : ChatType
deriving DecidableEq

/-- The global `all_commands = {"groups": {}, "users": {}}` structure:
two dicts mapping a chat-id string to a dict from command name to reply. -/
structure Registry where
  groups : List (Str × List (Str × Str))
  users : List (Str × List (Str × Str))
deriving DecidableEq

/-- The initial, empty registry. -/
def emptyRegistry : Registry := { groups := [], users := [] }

/-- Python dict lookup `d.get(k)` on an association list (first match). -/
def alookup {α : Type} : List (Str × α) → Str → Option α
  | [], _ => none
  | (k, v) :: rest, key => if k = key then some v else alookup rest key

/-- Python dict assignment `d[k] = v`: replaces the binding in place when the
key exists, otherwise appends it. -/
def alistSet {α : Type} : List (Str × α) → Str → α → List (Str × α)
  | [], key, val => [(key, val)]
  | (k, v) :: rest, key, val =>
    if k = key then (key, val) :: rest else (k, v) :: alistSet rest key val

/-- Python dict deletion `del d[k]`: removes the binding for the key. -/
def alistErase {α : Type} : List (Str × α) → Str → List (Str × α)
  | [], _ => []
  | (k, v) :: rest, key =>
    if k = key then alistErase rest key else (k, v) :: alistErase rest key

/-- The scoped command map of a chat, i.e. the repeated source pattern
`all_commands["groups"].get(chat_id, {})` for groups and supergroups and
`all_commands["users"].get(chat_id, {})` for private chats; any other chat
type takes neither branch, which behaves as an empty map. -/
def scopeCmds (r : Registry) (chat : Chat) : List (Str × Str) :=
  match chat.chatType with
  | ChatType.group | ChatType.supergroup => (alookup r.groups chat.id).getD []
  | ChatType.privateChat => (alookup r.users chat.id).getD []
  | ChatType.channel => []

/-- The keys of the `PREMADE_COMMANDS` dict (src/main.py lines 37-50). -/
def PREMADE_COMMANDS : List Str :=
  [("start".toList), ("new".toList), ("commandlist".toList), ("deleteall".toList),
   ("userinfo".toList), ("removeuser".toList), ("ban".toList), ("unban".toList),
   ("mute".toList), ("unmute".toList), ("pin".toList), ("invitelink".toList)]

/-- Conversation-handler states: `COMMAND` and `REPLY` from the creation
dialog, `CONFIRM_DELETE` from the bulk-delete dialog, and
`ConversationHandler.END`. -/
inductive DialogState where
  | command
  | reply
  | confirmDelete
  | endConv
deriving DecidableEq

/-- The `AwaitingName` step `get_command_name` (src/main.py lines 126-152):
normalises the candidate, rejects it (staying in state `COMMAND` with no
collected name) when the check
`not command_name or not (command_name.isalnum() or '_' in command_name)`
fires, when the name is a premade command, or when it already exists in the
chat's scope; otherwise records the name and moves to state `REPLY`. -/
def get_command_name (r : Registry) (chat : Chat) (text : Str) : DialogState × Option Str :=
  let command_name := normalize_name text
  if command_name.isEmpty || !(pyIsAlnum command_name || command_name.contains '_') then
    (DialogState.command, none)
  else if PREMADE_COMMANDS.contains command_name then
    (DialogState.command, none)
  else if (alookup (scopeCmds r chat) command_name).isSome then
    (DialogState.command, none)
  else
    (DialogState.reply, some command_name)

/-- The registry mutation of `get_command_reply` (src/main.py lines 161-168):
`all_commands[side].setdefault(chat_id, {})[command_name] = reply_text`,
where the side is `"groups"` for groups and supergroups and `"users"` for
private chats; any other chat type takes neither branch. -/
def putScoped (r : Registry) (chat : Chat) (name reply : Str) : Registry :=
  match chat.chatType with
  | ChatType.group | ChatType.supergroup =>
    let inner := alistSet ((alookup r.groups chat.id).getD []) name reply
    { r with groups := alistSet r.groups chat.id inner }
  | ChatType.privateChat =>
    let inner := alistSet ((alookup r.users chat.id).getD []) name reply
    { r with users := alistSet r.users chat.id inner }
  | ChatType.channel => r

/-- The success message of `get_command_reply` (src/main.py line 171). -/
def successMsg (name : Str) : Str :=
  ("✅ Success! The command /".toList) ++ name ++ (" has been created for this chat.".toList)

/-- JSON documents, as produced by `json.load` / consumed by `json.dump`. -/
inductive JValue where
  | jnull
  | jbool : Bool → JValue
  | jnum : Int → JValue
  | jstr : Str → JValue
  | jarr : List JValue → JValue
  | jobj : List (Str × JValue) → JValue

/-- The Python exceptions that the load path can raise uncaught. -/
inductive PyError where
  | attributeError
deriving DecidableEq

/-- The possible states of the durable command file: missing
(`FileNotFoundError`), present but not valid JSON (`JSONDecodeError`), or
present with some parsed JSON document. -/
inductive FileState where
  | absent
  | invalidJson
  | content : JValue → FileState

/-- Encoding of one scope's command dict into JSON. -/
def encodeCmds (m : List (Str × Str)) : JValue :=
  JValue.jobj (m.map (fun p => (p.1, JValue.jstr p.2)))

/-- Encoding of a scope-id-to-command-dict mapping into JSON. -/
def encodeScope (m : List (Str × List (Str × Str))) : JValue :=
  JValue.jobj (m.map (fun p => (p.1, encodeCmds p.2)))

/-- `save_user_commands` (src/main.py lines 72-75): `json.dump(all_commands, f)`,
i.e. the document written to the durable file. -/
def save_user_commands (r : Registry) : JValue :=
  JValue.jobj [(("groups".toList), encodeScope r.groups), (("users".toList), encodeScope r.users)]

/-- Python `data.get(key, default)`: defined on dicts, raises
`AttributeError` on every other value. -/
def jGet (v : JValue) (key : Str) (dflt : JValue) : Except PyError JValue :=
  match v with
  | JValue.jobj kvs => Except.ok ((alookup kvs key).getD dflt)
  | _ => Except.error PyError.attributeError

/-- `load_user_commands` (src/main.py lines 58-70): a missing file or a JSON
decode error is caught and yields the fresh empty structure; otherwise the
two top-level mappings are read with `data.get("groups", {})` and
`data.get("users", {})`, which raises an uncaught `AttributeError` when the
parsed document is not an object. -/
def load_user_commands (fs : FileState) : Except PyError (JValue × JValue) :=
  match fs with
  | FileState.absent => Except.ok (JValue.jobj [], JValue.jobj [])
  | FileState.invalidJson => Except.ok (JValue.jobj [], JValue.jobj [])
  | FileState.content data =>
    match jGet data ("groups".toList) (JValue.jobj []) with
    | Except.error e => Except.error e
    | Except.ok g =>
      match jGet data ("users".toList) (JValue.jobj []) with
      | Except.error e => Except.error e
      | Except.ok u => Except.ok (g, u)

/-- Reads a JSON object whose values are all strings back as a command dict. -/
def decodeCmdEntries : List (Str × JValue) → Option (List (Str × Str))
  | [] => some []
  | (k, JValue.jstr v) :: rest => (decodeCmdEntries rest).map (fun m => (k, v) :: m)
  | _ :: _ => none

/-- Reads a JSON value back as a command dict, when it has that shape. -/
def decodeCmdMap : JValue → Option (List (Str × Str))
  | JValue.jobj kvs => decodeCmdEntries kvs
  | _ => none

/-- Reads a JSON object of command dicts back as a scope mapping. -/
def decodeScopeEntries : List (Str × JValue) → Option (List (Str × List (Str × Str)))
  | [] => some []
  | (k, v) :: rest =>
    match decodeCmdMap v, decodeScopeEntries rest with
    | some m, some ms => some ((k, m) :: ms)
    | _, _ => none

/-- Reads a JSON value back as a scope mapping, when it has that shape. -/
def decodeScopeMap : JValue → Option (List (Str × List (Str × Str)))
  | JValue.jobj kvs => decodeScopeEntries kvs
  | _ => none

/-- The in-memory registry obtained by loading the durable file: the two
mappings returned by `load_user_commands`, read back as a typed `Registry`
(`none` when loading raised or the document does not have the registry
shape). -/
def loadDecoded (fs : FileState) : Option Registry :=
  match load_user_commands fs with
  | Except.error _ => none
  | Except.ok (g, u) =>
    match decodeScopeMap g, decodeScopeMap u with
    | some gs, some us => some { groups := gs, users := us }
    | _, _ => none

/-- The observable outcome of running the `get_command_reply` handler:
the in-memory registry afterwards, the document written by
`save_user_commands` (`none` when the write raised), the success reply sent
(`none` when the handler aborted before it), and the conversation state it
returned (`none` when it raised instead of returning). -/
structure MutationResult where
  registry : Registry
  savedDoc : Option JValue
  replied : Option Str
  returned : Option DialogState

/-- The `AwaitingReply` step `get_command_reply` (src/main.py lines 154-173):
stores the collected (name, reply) pair into the chat's scope, then calls
`save_user_commands()`, then sends the success message and returns `END`.
`saveFails` says whether the durable write raises; when it does, the
exception propagates out of the handler after the in-memory mutation. -/
def get_command_reply (saveFails : Bool) (r : Registry) (chat : Chat) (name reply : Str) :
    MutationResult :=
  let rNew := putScoped r chat name reply
  if saveFails then
    { registry := rNew, savedDoc := none, replied := none, returned := none }
  else
    { registry := rNew, savedDoc := some (save_user_commands rNew),
      replied := some (successMsg name), returned := some DialogState.endConv }

/-- `handle_custom_command` (src/main.py lines 180-194): drops the command
marker, keeps the part before any `@`, lower-cases it, looks it up in the
chat's scope, and sends the stored reply when the lookup result is truthy. -/
def handle_custom_command (r : Registry) (chat : Chat) (text : Str) : Option Str :=
  if text.isEmpty then none
  else
    let command := ((text.drop 1).takeWhile (fun c => c != '@')).map Char.toLower
    match alookup (scopeCmds r chat) command with
    | some resp => if resp.isEmpty then none else some resp
    | none => none

/-- The confirmation prompt of `delete_all_start` (src/main.py line 197). -/
def confirmMsg : Str :=
  ("⚠️ Are you sure you want to delete ALL custom commands from this chat? This cannot be undone. Reply \x27yes\x27 to confirm.".toList)

/-- Reply of `delete_all_confirm` after a successful bulk delete. -/
def deletedMsg : Str := ("✅ All custom commands for this chat have been deleted.".toList)

/-- Reply of `delete_all_confirm` when the chat had no custom commands. -/
def noCommandsMsg : Str := ("There were no custom commands in this chat to delete.".toList)

/-- Reply of `delete_all_confirm` when the confirmation text was not `yes`. -/
def canceledMsg : Str := ("Deletion canceled.".toList)

/-- `delete_all_start` (src/main.py lines 196-198): the `/deleteall` entry
point.  It reads neither the registry nor the chat: it always sends the
confirmation prompt and moves to the `CONFIRM_DELETE` state. -/
def delete_all_start (_r : Registry) (_chat : Chat) : DialogState × Str :=
  (DialogState.confirmDelete, confirmMsg)

/-- The observable outcome of `delete_all_confirm`: the registry afterwards,
whether `save_user_commands` was called, the reply sent, and the returned
conversation state. -/
structure ConfirmResult where
  registry : Registry
  saved : Bool
  message : Str
  returned : DialogState
deriving DecidableEq

/-- `delete_all_confirm` (src/main.py lines 200-221): when the message
lower-cases to `yes`, the chat's scope key is deleted if present (followed by
a save and a success reply, otherwise a nothing-to-delete notice); any other
message cancels.  Every branch returns `END`. -/
def delete_all_confirm (r : Registry) (chat : Chat) (text : Str) : ConfirmResult :=
  if pyLower text = ("yes".toList) then
    match chat.chatType with
    | ChatType.group | ChatType.supergroup =>
      if (alookup r.groups chat.id).isSome then
        { registry := { r with groups := alistErase r.groups chat.id },
          saved := true, message := deletedMsg, returned := DialogState.endConv }
      else
        { registry := r, saved := false, message := noCommandsMsg,
          returned := DialogState.endConv }
    | ChatType.privateChat =>
      if (alookup r.users chat.id).isSome then
        { registry := { r with users := alistErase r.users chat.id },
          saved := true, message := deletedMsg, returned := DialogState.endConv }
      else
        { registry := r, saved := false, message := noCommandsMsg,
          returned := DialogState.endConv }
    | ChatType.channel =>
      { registry := r, saved := false, message := noCommandsMsg,
        returned := DialogState.endConv }
  else
    { registry := r, saved := false, message := canceledMsg,
      returned := DialogState.endConv }

/-- The spec's character class `[a-z0-9_]` for command names (stated from the
spec, for comparison with the source validator). -/
def validChar (c : Char) : Bool :=
  (decide (97 ≤ c.toNat) && decide (c.toNat ≤ 122)) ||
  (decide (48 ≤ c.toNat) && decide (c.toNat ≤ 57)) ||
  decide (c.toNat = 95)

/-- The spec's name pattern: non-empty and matching `[a-z0-9_]+` (stated from
the spec, for comparison with the source validator). -/
def validNameB (s : Str) : Bool := !s.isEmpty && s.all validChar

/-- A concrete group chat used for witnesses. -/
def chat0 : Chat := { id := ("12345".toList), chatType := ChatType.group }

/-- A concrete registry holding one command in the scope of `chat0`. -/
def regWeather : Registry := putScoped emptyRegistry chat0 ("weather".toList) ("Sunny".toList)

theorem alookup_alistSet_self {α : Type} (m : List (Str × α)) (k : Str) (v : α) :
    alookup (alistSet m k v) k = some v := by
  induction m with
  | nil => simp [alistSet, alookup]
  | cons p rest ih =>
    obtain ⟨a, b⟩ := p
    by_cases hak : a = k
    · simp [alistSet, alookup, hak]
    · simp [alistSet, alookup, hak, ih]

theorem alookup_alistErase_self {α : Type} (m : List (Str × α)) (k : Str) :
    alookup (alistErase m k) k = none := by
  induction m with
  | nil => simp [alistErase, alookup]
  | cons p rest ih =>
    obtain ⟨a, b⟩ := p
    by_cases hak : a = k
    · simp [alistErase, hak, ih]
    · simp [alistErase, alookup, hak, ih]

theorem alookup_eq_none_of_forall_ne {α : Type} (m : List (Str × α)) (k : Str)
    (h : ∀ p ∈ m, p.1 ≠ k) : alookup m k = none := by
  induction m with
  | nil => rfl
  | cons p rest ih =>
    obtain ⟨a, b⟩ := p
    have ha : a ≠ k := h (a, b) (List.mem_cons_self _ _)
    simp only [alookup, if_neg ha]
    exact ih (fun q hq => h q (List.mem_cons_of_mem _ hq))

theorem takeWhile_append_all (p : Char → Bool) (l₁ l₂ : Str) (h : ∀ c ∈ l₁, p c = true) :
    (l₁ ++ l₂).takeWhile p = l₁ ++ l₂.takeWhile p := by
  induction l₁ with
  | nil => rfl
  | cons c cs ih =>
    have hc : p c = true := h c (List.mem_cons_self _ _)
    simp only [List.cons_append, List.takeWhile_cons, hc, if_true]
    rw [ih (fun d hd => h d (List.mem_cons_of_mem _ hd))]

theorem map_eq_self_of_id_on (f : Char → Char) (l : Str) (h : ∀ c ∈ l, f c = c) :
    l.map f = l := by
  induction l with
  | nil => rfl
  | cons c cs ih =>
    simp only [List.map_cons, h c (List.mem_cons_self _ _)]
    rw [ih (fun d hd => h d (List.mem_cons_of_mem _ hd))]

theorem toLower_eq_self_of_validChar (c : Char) (h : validChar c = true) :
    c.toLower = c := by
  have h' : ¬(65 ≤ c.toNat ∧ c.toNat ≤ 90) := by
    simp only [validChar, Bool.or_eq_true, Bool.and_eq_true, decide_eq_true_eq] at h
    omega
  unfold Char.toLower
  rw [if_neg (by exact fun hc => h' ⟨hc.1, hc.2⟩)]

theorem validChar_ne_at (c : Char) (h : validChar c = true) : c ≠ '@' := by
  intro hc
  subst hc
  exact absurd h (by decide)

theorem validChar_ne_space (c : Char) (h : validChar c = true) : c ≠ ' ' := by
  intro hc
  subst hc
  exact absurd h (by decide)

theorem scopeCmds_putScoped (r : Registry) (chat : Chat) (name reply : Str)
    (h : chat.chatType ≠ ChatType.channel) :
    scopeCmds (putScoped r chat name reply) chat = alistSet (scopeCmds r chat) name reply := by
  obtain ⟨cid, ct⟩ := chat
  cases ct <;>
    simp_all [scopeCmds, putScoped, alookup_alistSet_self]

theorem takeWhile_eq_self_of_all (p : Char → Bool) (l : Str) (h : ∀ c ∈ l, p c = true) :
    l.takeWhile p = l := by
  induction l with
  | nil => rfl
  | cons c cs ih =>
    simp only [List.takeWhile_cons, h c (List.mem_cons_self _ _), if_true]
    rw [ih (fun d hd => h d (List.mem_cons_of_mem _ hd))]

/-- C1: for every valid scope and every name that collides with neither a
built-in nor an existing entry of the scope, committing the creation dialog
with (name, reply) and then dispatching the command invocation `/name` in the
same scope produces the stored reply, on the in-memory registry the commit
produced (no restart, no reload). -/
theorem c1_create_then_dispatch (r : Registry) (chat : Chat) (name reply : Str)
    (hscope : chat.chatType ≠ ChatType.channel)
    (hname : validNameB name = true)
    (hbuiltin : PREMADE_COMMANDS.contains name = false)
    (hfresh : alookup (scopeCmds r chat) name = none)
    (hreply : reply ≠ []) :
    handle_custom_command (get_command_reply false r chat name reply).registry chat
      ('/' :: name) = some reply := by
  have hchars : ∀ c ∈ name, validChar c = true := by
    simp only [validNameB, Bool.and_eq_true, List.all_eq_true] at hname
    exact hname.2
  have hat : ∀ c ∈ name, (c != '@') = true := by
    intro c hc
    simpa [bne_iff_ne] using validChar_ne_at c (hchars c hc)
  have hlower : name.map Char.toLower = name :=
    map_eq_self_of_id_on Char.toLower name
      (fun c hc => toLower_eq_self_of_validChar c (hchars c hc))
  have hreg : (get_command_reply false r chat name reply).registry
      = putScoped r chat name reply := rfl
  rw [hreg]
  simp only [handle_custom_command, List.isEmpty_cons, Bool.false_eq_true, if_false,
    List.drop_succ_cons, List.drop_zero]
  rw [takeWhile_eq_self_of_all _ _ hat, hlower,
    scopeCmds_putScoped r chat name reply hscope, alookup_alistSet_self]
  cases reply with
  | nil => exact absurd rfl hreply
  | cons a l => rfl

/-- Closed witness for C1 at a concrete scope, name and reply. -/
theorem c1_create_then_dispatch_witness :
    handle_custom_command
      (get_command_reply false emptyRegistry chat0 ("weather".toList) ("Sunny".toList)).registry
      chat0 ('/' :: ("weather".toList)) = some ("Sunny".toList) :=
  c1_create_then_dispatch emptyRegistry chat0 ("weather".toList) ("Sunny".toList)
    (by decide) (by decide) (by decide) (by decide) (by decide)

theorem decodeCmdMap_encodeCmds (m : List (Str × Str)) :
    decodeCmdMap (encodeCmds m) = some m := by
  simp only [decodeCmdMap, encodeCmds]
  induction m with
  | nil => rfl
  | cons p rest ih =>
    obtain ⟨a, b⟩ := p
    simp [decodeCmdEntries, ih]

theorem decodeScopeMap_encodeScope (m : List (Str × List (Str × Str))) :
    decodeScopeMap (encodeScope m) = some m := by
  simp only [decodeScopeMap, encodeScope]
  induction m with
  | nil => rfl
  | cons p rest ih =>
    obtain ⟨a, b⟩ := p
    simp [decodeScopeEntries, decodeCmdMap_encodeCmds, ih]

/-- C2: saving any registry (the empty one included) to the durable file and
loading it back yields the same registry. -/
theorem c2_round_trip (r : Registry) :
    loadDecoded (FileState.content (save_user_commands r)) = some r := by
  have hne : ("groups".toList : Str) ≠ ("users".toList) := by decide
  simp only [loadDecoded, load_user_commands, save_user_commands, jGet, alookup,
    if_pos rfl, if_neg hne, if_true, Option.getD_some, decodeScopeMap_encodeScope]

/-- C3: evaluation of the source validator at the failing input `a_!`.
The claim says every accepted name matches `[a-z0-9_]+`; the source check
`command_name.isalnum() or '_' in command_name` accepts `a_!` (it contains an
underscore) although `!` is outside the class, contradicting the code's own
rejection message, so the dialog advances to the reply stage with that name. -/
theorem c3_validator_accepts_bad_char :
    get_command_name emptyRegistry chat0 ("a_!".toList)
      = (DialogState.reply, some ("a_!".toList)) ∧
    validNameB ("a_!".toList) = false := by decide

/-- C4: name normalisation is case-insensitive (inputs with equal
lower-casings normalise identically, since lower-casing is the first step of
the pipeline), and the inputs `My Cmd`, `my-cmd` and `MY_CMD` all normalise
to `my_cmd`; runs of whitespace and hyphens collapse to one underscore after
the leading marker is stripped. -/
theorem c4_normalization :
    (∀ s t : Str, pyLower s = pyLower t → normalize_name s = normalize_name t) ∧
    normalize_name ("My Cmd".toList) = ("my_cmd".toList) ∧
    normalize_name ("my-cmd".toList) = ("my_cmd".toList) ∧
    normalize_name ("MY_CMD".toList) = ("my_cmd".toList) ∧
    normalize_name ("/My- -Cmd".toList) = ("my_cmd".toList) := by
  refine ⟨?_, by decide, by decide, by decide, by decide⟩
  intro s t h
  unfold normalize_name
  rw [h]

/-- Closed witness for C4's case-insensitivity hypothesis at concrete inputs. -/
theorem c4_normalization_witness :
    normalize_name ("My Cmd".toList) = normalize_name ("my cmd".toList) :=
  c4_normalization.1 ("My Cmd".toList) ("my cmd".toList) (by decide)

/-- C5: scopes are isolated.  Storing a command in the Group scope of a chat
identifier changes no dispatch outcome in the User scope of the same raw
identifier, and vice versa. -/
theorem c5_scope_isolation (r : Registry) (ident n v text : Str) :
    (handle_custom_command
        (get_command_reply false r { id := ident, chatType := ChatType.group } n v).registry
        { id := ident, chatType := ChatType.privateChat } text
      = handle_custom_command r { id := ident, chatType := ChatType.privateChat } text) ∧
    (handle_custom_command
        (get_command_reply false r { id := ident, chatType := ChatType.privateChat } n v).registry
        { id := ident, chatType := ChatType.group } text
      = handle_custom_command r { id := ident, chatType := ChatType.group } text) := by
  constructor <;> simp [handle_custom_command, get_command_reply, putScoped, scopeCmds]

/-- C6 counterexample: a durable file whose content is the valid JSON
document `null` is malformed for the expected schema, yet `load_user_commands`
raises an uncaught `AttributeError` (from `data.get("groups", {})`) instead of
returning the empty registry. -/
theorem c6_counterexample :
    load_user_commands (FileState.content JValue.jnull)
      = Except.error PyError.attributeError := rfl

/-- C6 amended: load is fail-open exactly for an absent file and for content
that fails JSON parsing — both yield the empty registry — and it never raises
when the parsed document is a JSON object; a document that parses to a
non-object raises an uncaught `AttributeError` instead. -/
theorem c6_load_fail_open :
    load_user_commands FileState.absent = Except.ok (JValue.jobj [], JValue.jobj []) ∧
    load_user_commands FileState.invalidJson = Except.ok (JValue.jobj [], JValue.jobj []) ∧
    (∀ kvs : List (Str × JValue), ∃ g u,
      load_user_commands (FileState.content (JValue.jobj kvs)) = Except.ok (g, u)) ∧
    loadDecoded FileState.absent = some emptyRegistry ∧
    loadDecoded FileState.invalidJson = some emptyRegistry := by
  refine ⟨rfl, rfl, ?_, rfl, rfl⟩
  intro kvs
  exact ⟨_, _, rfl⟩

/-- C7 counterexample: with the registry empty, the scope of `chat0` holds
zero custom commands, yet entering the delete-all dialog still returns the
`CONFIRM_DELETE` state (asking for confirmation) rather than ending. -/
theorem c7_counterexample :
    scopeCmds emptyRegistry chat0 = [] ∧
    (delete_all_start emptyRegistry chat0).1 = DialogState.confirmDelete ∧
    DialogState.confirmDelete ≠ DialogState.endConv := by
  refine ⟨rfl, rfl, by decide⟩

/-- C7 amended: entering the delete-all dialog always sends the confirmation
prompt and moves to `AwaitingDeleteConfirmation`, regardless of whether the
scope has custom commands; only when the user then confirms affirmatively in
a scope with no stored commands does the handler answer with the
nothing-to-delete notice, performing no save and ending the dialog. -/
theorem c7_always_asks_confirmation :
    (∀ (r : Registry) (chat : Chat),
      delete_all_start r chat = (DialogState.confirmDelete, confirmMsg)) ∧
    (∀ chat : Chat,
      (delete_all_confirm emptyRegistry chat ("yes".toList)).saved = false ∧
      (delete_all_confirm emptyRegistry chat ("yes".toList)).message = noCommandsMsg ∧
      (delete_all_confirm emptyRegistry chat ("yes".toList)).returned = DialogState.endConv) := by
  constructor
  · intro r chat
    rfl
  · intro chat
    obtain ⟨cid, ct⟩ := chat
    cases ct <;> simp [delete_all_confirm, emptyRegistry, alookup] <;> decide

/-- C8: in the confirmation state, every message returns `END`; a message
that lower-cases to the affirmative literal `yes` leaves the chat's scope
with no commands at all, and any other message leaves the registry completely
unchanged. -/
theorem c8_confirm_semantics (r : Registry) (chat : Chat) (text : Str) :
    (delete_all_confirm r chat text).returned = DialogState.endConv ∧
    (pyLower text = ("yes".toList) →
      scopeCmds (delete_all_confirm r chat text).registry chat = []) ∧
    (pyLower text ≠ ("yes".toList) →
      (delete_all_confirm r chat text).registry = r) := by
  by_cases hy : pyLower text = ("yes".toList)
  · unfold delete_all_confirm
    rw [if_pos hy]
    obtain ⟨cid, ct⟩ := chat
    refine ⟨?_, fun _ => ?_, fun h => absurd hy h⟩ <;>
      cases ct <;>
        first
          | (cases hg : alookup r.groups cid <;>
              simp [hg, scopeCmds, alookup_alistErase_self] <;> done)
          | (cases hg : alookup r.users cid <;>
              simp [hg, scopeCmds, alookup_alistErase_self] <;> done)
  · unfold delete_all_confirm
    rw [if_neg hy]
    exact ⟨rfl, fun h => absurd h hy, fun _ => rfl⟩

/-- Closed witness for C8: confirming with `YES` empties the scope that held
the command `weather`, and answering `no` leaves the registry unchanged. -/
theorem c8_confirm_semantics_witness :
    scopeCmds (delete_all_confirm regWeather chat0 ("YES".toList)).registry chat0 = [] ∧
    (delete_all_confirm regWeather chat0 ("no".toList)).registry = regWeather :=
  ⟨(c8_confirm_semantics regWeather chat0 ("YES".toList)).2.1 (by decide),
   (c8_confirm_semantics regWeather chat0 ("no".toList)).2.2 (by decide)⟩

/-- C9 counterexample: when the durable write fails, the handler sends no
success reply, but the in-memory registry is not rolled back: the freshly
created command is still there, so the registry is not "as if the mutation
had not happened". -/
theorem c9_counterexample :
    (get_command_reply true emptyRegistry chat0 ("weather".toList) ("Sunny".toList)).replied
      = none ∧
    (get_command_reply true emptyRegistry chat0 ("weather".toList) ("Sunny".toList)).registry
      ≠ emptyRegistry ∧
    alookup
      (scopeCmds
        (get_command_reply true emptyRegistry chat0 ("weather".toList) ("Sunny".toList)).registry
        chat0)
      ("weather".toList) = some ("Sunny".toList) := by
  refine ⟨rfl, by decide, by decide⟩

/-- C9 amended: the mutation path calls the durable save, on the mutated
registry, before the success reply is sent, and when the write fails the
success reply is never sent — but the in-memory registry keeps the mutation
in either case, so a failed write leaves memory and disk out of step rather
than rolling the mutation back. -/
theorem c9_save_before_success (saveFails : Bool) (r : Registry) (chat : Chat)
    (name reply : Str) :
    ((get_command_reply saveFails r chat name reply).replied.isSome = true →
      (get_command_reply saveFails r chat name reply).savedDoc
        = some (save_user_commands (get_command_reply saveFails r chat name reply).registry)) ∧
    (saveFails = true →
      (get_command_reply saveFails r chat name reply).replied = none ∧
      (get_command_reply saveFails r chat name reply).savedDoc = none) ∧
    (get_command_reply saveFails r chat name reply).registry = putScoped r chat name reply := by
  cases saveFails <;> simp [get_command_reply]

/-- Closed witness for C9: a successful run records the saved document of the
mutated registry, and a failing run sends no success reply. -/
theorem c9_save_before_success_witness :
    (get_command_reply false emptyRegistry chat0 ("weather".toList) ("Sunny".toList)).savedDoc
      = some (save_user_commands
          (get_command_reply false emptyRegistry chat0 ("weather".toList)
            ("Sunny".toList)).registry) ∧
    (get_command_reply true emptyRegistry chat0 ("weather".toList) ("Sunny".toList)).replied
      = none :=
  ⟨(c9_save_before_success false emptyRegistry chat0 ("weather".toList) ("Sunny".toList)).1 rfl,
   ((c9_save_before_success true emptyRegistry chat0 ("weather".toList)
      ("Sunny".toList)).2.1 rfl).1⟩

/-- C10: dispatch keys on the whole text after the marker (only an `@`-suffix
is stripped and lower-casing applied), so when every stored name of the scope
matches the name pattern, an invocation of a pattern-conforming name followed
by a space and trailing arguments matches nothing and produces no reply. -/
theorem c10_trailing_args_no_match (r : Registry) (chat : Chat) (name args : Str)
    (hkeys : ∀ p ∈ scopeCmds r chat, validNameB p.1 = true)
    (hname : validNameB name = true) :
    handle_custom_command r chat ('/' :: (name ++ ' ' :: args)) = none := by
  have hchars : ∀ c ∈ name, validChar c = true := by
    simp only [validNameB, Bool.and_eq_true, List.all_eq_true] at hname
    exact hname.2
  have hat : ∀ c ∈ name, (c != '@') = true := by
    intro c hc
    simpa [bne_iff_ne] using validChar_ne_at c (hchars c hc)
  simp only [handle_custom_command, List.isEmpty_cons, Bool.false_eq_true, if_false,
    List.drop_succ_cons, List.drop_zero]
  rw [takeWhile_append_all _ _ _ hat]
  have hsp : List.takeWhile (fun c => c != '@') (' ' :: args)
      = ' ' :: List.takeWhile (fun c => c != '@') args := by
    simp [List.takeWhile_cons]
  rw [hsp, List.map_append, List.map_cons]
  have hmem : (' ' : Char) ∈
      name.map Char.toLower ++ Char.toLower ' ' :: (List.takeWhile (fun c => c != '@') args).map Char.toLower := by
    have : Char.toLower ' ' = ' ' := by decide
    rw [this]
    exact List.mem_append_right _ (List.mem_cons_self _ _)
  have hnone : alookup (scopeCmds r chat)
      (name.map Char.toLower ++ Char.toLower ' ' :: (List.takeWhile (fun c => c != '@') args).map Char.toLower) = none := by
    apply alookup_eq_none_of_forall_ne
    intro p hp heq
    have hvp : validNameB p.1 = true := hkeys p hp
    simp only [validNameB, Bool.and_eq_true, List.all_eq_true] at hvp
    have : (' ' : Char) ∈ p.1 := heq ▸ hmem
    exact validChar_ne_space ' ' (hvp.2 ' ' this) rfl
  rw [hnone]

/-- Closed witness for C10: with `weather` stored, `/weather now` produces no
reply. -/
theorem c10_trailing_args_no_match_witness :
    handle_custom_command regWeather chat0 ('/' :: (("weather".toList) ++ ' ' :: ("now".toList)))
      = none :=
  c10_trailing_args_no_match regWeather chat0 ("weather".toList) ("now".toList)
    (by decide) (by decide)
